import Mathlib

/-! The side_chain_tool web client, `tools/side_chain_tool/web/assets/main.js`.

A shallow embedding of the six button handlers of the peg gateway's front-end
and of the `success` callbacks they hand to `$.ajax`.

* A click handler is a function from what it reads (the base `window.url`, the
  serialized form, the account input) to the list of effects it performs, in
  program order: console output, `layer` notices and alerts, and requests.
* A `success` callback is a function from the response value to a `Run`: the
  effects performed and the exception, if any, that ended it.
* A string is a sequence of Unicode characters, a number the rational value of
  a double, an object the list of its own properties in creation order.
* Built-ins that the handlers call and whose result depends on the JavaScript
  host (`ToPrimitive` on an object operand of `==`, `JSON.parse`) are the
  fields of a `Host` record that the callbacks take as a parameter; what is
  proved holds for every host.

The definitions come first, then the lemmas, then one theorem for each claim
about the handlers.
-/

namespace SideChainTool

/-! ## JavaScript values -/

/-- The values a handler can receive from jQuery: `undefined` (an empty
    response), or a parsed JSON value. A number is the rational value of the
    double; `obj` lists the own properties in creation order. -/
inductive JSVal where
  | undefined
  | null
  | bool (b : Bool)
  | num (q : ℚ)
  | str (s : String)
  | arr (items : List JSVal)
  | obj (props : List (String × JSVal))
  deriving Inhabited

/-- The exceptions a callback can end with. -/
inductive JSError where
  | typeError
  | syntaxError
  deriving DecidableEq, Repr, Inhabited

/-- The property names the callbacks read from a value. None of them is defined
    on `Object.prototype`, `Array.prototype`, `String.prototype`,
    `Number.prototype` or `Boolean.prototype`. -/
inductive PropName where
  | code
  | msg
  | data
  deriving DecidableEq, Repr, Inhabited

/-- The property name as a string key. -/
def PropName.key : PropName → String
  | .code => "code"
  | .msg => "msg"
  | .data => "data"

/-- Property read `v.code`, `v.msg`, `v.data`: a `TypeError` on `undefined` and
    `null`; the own property of an object, `undefined` when it has none; and
    `undefined` on every other value (a primitive or an array has no such
    property). -/
def getProp (v : JSVal) (k : PropName) : Except JSError JSVal :=
  match v with
  | .undefined => .error .typeError
  | .null => .error .typeError
  | .obj props => .ok ((props.lookup k.key).getD .undefined)
  | _ => .ok .undefined

/-- The host's built-ins the callbacks depend on. `ToPrimitive` is the
    ECMAScript abstract operation on an object or array operand of `==` (it
    dispatches to `valueOf` / `toString` and may throw); `JSON_parse` is
    `JSON.parse` applied to a value (throws on text that is not JSON). -/
structure Host where
  ToPrimitive : JSVal → Except JSError JSVal
  JSON_parse : JSVal → Except JSError JSVal

/-- `ToBoolean`: `undefined`, `null`, `false`, `0`, and `""` are falsy, every
    other value is truthy. -/
def ToBoolean : JSVal → Bool
  | .undefined => false
  | .null => false
  | .bool b => b
  | .num q => decide (q ≠ 0)
  | .str s => decide (s ≠ "")
  | .arr _ => true
  | .obj _ => true

/-! ### `StringToNumber`, as far as `== 200` needs it -/

/-- `StrWhiteSpaceChar`: white space and line terminators. -/
def isStrWhiteSpaceChar (c : Char) : Bool :=
  let n := c.toNat
  n = 0x09 || n = 0x0A || n = 0x0B || n = 0x0C || n = 0x0D || n = 0x20 || n = 0xA0
    || n = 0x1680 || (0x2000 ≤ n && n ≤ 0x200A) || n = 0x2028 || n = 0x2029
    || n = 0x202F || n = 0x205F || n = 0x3000 || n = 0xFEFF

/-- Strip leading and trailing `StrWhiteSpaceChar`s. -/
def trimWhiteSpace (cs : List Char) : List Char :=
  ((cs.dropWhile isStrWhiteSpaceChar).reverse.dropWhile isStrWhiteSpaceChar).reverse

/-- The value of one digit in the given base, `none` when it is not one. -/
def digitValue (base : Nat) (c : Char) : Option Nat :=
  let n := c.toNat
  let d :=
    if 48 ≤ n ∧ n ≤ 57 then some (n - 48)
    else if 97 ≤ n ∧ n ≤ 102 then some (n - 87)
    else if 65 ≤ n ∧ n ≤ 70 then some (n - 55)
    else none
  d.bind fun v => if v < base then some v else none

/-- The value of a digit sequence read in the given base (the accumulator holds
    the digits read so far); `none` when a character is not a digit. -/
def digitsValueFrom (base : Nat) (acc : Nat) : List Char → Option Nat
  | [] => some acc
  | c :: cs =>
    match digitValue base c with
    | none => none
    | some d => digitsValueFrom base (acc * base + d) cs

/-- The value of a non-empty digit sequence. -/
def digitsValue (base : Nat) (cs : List Char) : Option Nat :=
  if cs = [] then none else digitsValueFrom base 0 cs

/-- The mathematical value of a `StrUnsignedDecimalLiteral` other than
    `Infinity`, as a pair `(m, e)` standing for `m * 10 ^ e`. -/
def unsignedDecimalValue (cs : List Char) : Option (Nat × Int) :=
  let mant := cs.takeWhile fun c => c ≠ 'e' && c ≠ 'E'
  let rest := cs.dropWhile fun c => c ≠ 'e' && c ≠ 'E'
  let expo : Option Int :=
    match rest with
    | [] => some 0
    | _ :: '+' :: ds => (digitsValue 10 ds).map Int.ofNat
    | _ :: '-' :: ds => (digitsValue 10 ds).map fun n => - Int.ofNat n
    | _ :: ds => (digitsValue 10 ds).map Int.ofNat
  let ip := mant.takeWhile fun c => c ≠ '.'
  let mantissa : Option (Nat × Int) :=
    match mant.dropWhile fun c => c ≠ '.' with
    | [] => (digitsValue 10 ip).map fun n => (n, 0)
    | _ :: fp =>
      if ip = [] ∧ fp = [] then none
      else (digitsValueFrom 10 0 (ip ++ fp)).map fun n => (n, - Int.ofNat fp.length)
  match mantissa, expo with
  | some (m, e), some x => some (m, e + x)
  | _, _ => none

/-- Does `m * 10 ^ e` round to the double 200? Conversion rounds to the nearest
    double, ties to the even significand (the rounding the standard requires
    of literals of up to 20 significant digits, and engines apply to all). 200
    has an even significand and its neighbours are `200 ± 2 ^ (-45)`, so
    exactly the values within `2 ^ (-46)` of 200 round to it. -/
def roundsTo200 (m : Nat) (e : Int) : Bool :=
  match e with
  | .ofNat k => decide (m * 10 ^ k = 200)
  | .negSucc j =>
    let p := 10 ^ (j + 1)
    decide (2 ^ 46 * (m - 200 * p) ≤ p ∧ 2 ^ 46 * (200 * p - m) ≤ p)

/-- The test `StringToNumber(s) = 200`. The string is trimmed; it is then a
    `0x` / `0o` / `0b` integer, or an optionally signed `Infinity` or decimal
    literal; anything else converts to `NaN`, the empty string to `0`. -/
def stringIs200 (s : String) : Bool :=
  match trimWhiteSpace s.data with
  | '0' :: 'x' :: ds => digitsValue 16 ds == some 200
  | '0' :: 'X' :: ds => digitsValue 16 ds == some 200
  | '0' :: 'o' :: ds => digitsValue 8 ds == some 200
  | '0' :: 'O' :: ds => digitsValue 8 ds == some 200
  | '0' :: 'b' :: ds => digitsValue 2 ds == some 200
  | '0' :: 'B' :: ds => digitsValue 2 ds == some 200
  | '-' :: _ => false
  | '+' :: ds =>
    match unsignedDecimalValue ds with
    | some (m, e) => roundsTo200 m e
    | none => false
  | ds =>
    match unsignedDecimalValue ds with
    | some (m, e) => roundsTo200 m e
    | none => false

/-- Loose equality with the number literal: `v == 200`. `undefined` and `null`
    equal only each other; a boolean converts to 0 or 1; a string is converted
    with `StringToNumber`; an object or array is first converted with the
    host's `ToPrimitive`, which may throw. -/
def looseEq200 (H : Host) (v : JSVal) : Except JSError Bool :=
  let prim : JSVal → Except JSError Bool := fun p =>
    match p with
    | .undefined => .ok false
    | .null => .ok false
    | .bool _ => .ok false
    | .num q => .ok (decide (q = 200))
    | .str s => .ok (stringIs200 s)
    | .arr _ => .error .typeError
    | .obj _ => .error .typeError
  match v with
  | .arr items =>
    match H.ToPrimitive (.arr items) with
    | .ok p => prim p
    | .error e => .error e
  | .obj props =>
    match H.ToPrimitive (.obj props) with
    | .ok p => prim p
    | .error e => .error e
  | p => prim p

/-! ## Strings: `split(",")` and `join(",")` -/

/-- The segments of a character sequence between its commas: the loop of
    `String.prototype.split` for the one-character separator `","`. The
    sequence read so far ends a segment at each comma; what is left after the
    last comma (all of it when there is none, the empty sequence for the empty
    string) is the last segment. -/
def splitChars : List Char → List (List Char)
  | [] => [[]]
  | c :: cs =>
    if c = ',' then [] :: splitChars cs
    else
      match splitChars cs with
      | [] => [[c]]
      | seg :: segs => (c :: seg) :: segs

/-- The call `s.split(",")`. -/
def split (s : String) : List String :=
  (splitChars s.data).map String.mk

/-- The call `xs.join(",")` on an array of strings. -/
def join : List String → String
  | [] => ""
  | [s] => s
  | s :: t :: rest => s ++ "," ++ join (t :: rest)

/-- The number of commas in a string. -/
def commaCount (s : String) : Nat :=
  s.data.count ','

/-! ## The request body object -/

/-- One entry of `$(form).serializeArray()`: a control's name and its value,
    both strings. -/
structure Field where
  name : String
  value : String
  deriving DecidableEq, Repr, Inhabited

/-- The values the handlers store in the body object: a string, or the array of
    strings that `split` returns. -/
inductive BodyVal where
  | text (s : String)
  | list (xs : List String)
  deriving DecidableEq, Repr, Inhabited

/-- The own properties of the body object `obj`, in creation order. -/
abbrev Props := List (String × BodyVal)

/-- Create the own property `k`, or overwrite its value where it stands. -/
def putOwn (k : String) (v : BodyVal) : Props → Props
  | [] => [(k, v)]
  | (k', v') :: rest =>
    if k' = k then (k, v) :: rest else (k', v') :: putOwn k v rest

/-- The assignment `obj[k] = v` on an object created by the literal `{}`. The
    key `__proto__` is not stored: it names the accessor that `obj` inherits
    from `Object.prototype`, so the assignment calls its setter, which creates
    no own property (and, given a string, does nothing at all). Every other
    key creates or overwrites an own property. -/
def setProp (o : Props) (k : String) (v : BodyVal) : Props :=
  if k = "__proto__" then o else putOwn k v o

/-- The value of the own property `k`, if the object has one. -/
def getOwn (o : Props) (k : String) : Option BodyVal :=
  o.lookup k

/-- The own property keys of the object. -/
def ownKeys (o : Props) : List String :=
  o.map Prod.fst

/-- The value of the last field named `k`, if there is one. -/
def lastValue (k : String) : List Field → Option String
  | [] => none
  | f :: fs =>
    match lastValue k fs with
    | some v => some v
    | none => if f.name = k then some f.value else none

/-! ## `JSON.stringify` on a body object -/

/-- The hexadecimal digit of a number below 16, lower case. -/
def hexDigit (n : Nat) : Char :=
  if n < 10 then Char.ofNat (48 + n) else Char.ofNat (87 + n)

/-- The escape of one character inside a JSON string (`QuoteJSONString`). -/
def escapeChar (c : Char) : List Char :=
  let n := c.toNat
  if n = 0x08 then ['\\', 'b']
  else if n = 0x09 then ['\\', 't']
  else if n = 0x0A then ['\\', 'n']
  else if n = 0x0C then ['\\', 'f']
  else if n = 0x0D then ['\\', 'r']
  else if n = 0x22 then ['\\', '"']
  else if n = 0x5C then ['\\', '\\']
  else if n < 0x20 then ['\\', 'u', '0', '0', hexDigit (n / 16), hexDigit (n % 16)]
  else [c]

/-- A string as a JSON string literal. -/
def quoteJSON (s : String) : String :=
  String.mk ('"' :: (s.data.flatMap escapeChar ++ ['"']))

/-- Join already serialized elements with commas. -/
def commaSep : List String → String
  | [] => ""
  | [s] => s
  | s :: t :: rest => s ++ "," ++ commaSep (t :: rest)

/-- A body value as JSON text. -/
def BodyVal.toJSON : BodyVal → String
  | .text s => quoteJSON s
  | .list xs => "[" ++ commaSep (xs.map quoteJSON) ++ "]"

/-- The array index a key stands for: the key is the canonical decimal string
    of a number below `2 ^ 32 - 1`. -/
def arrayIndex (k : String) : Option Nat :=
  match digitsValue 10 k.data with
  | some n => if n < 4294967295 ∧ toString n = k then some n else none
  | none => none

/-- Insert an index-keyed property into a list sorted by index. -/
def insertByIndex (p : Nat × String × BodyVal) : List (Nat × String × BodyVal) →
    List (Nat × String × BodyVal)
  | [] => [p]
  | q :: qs => if p.1 ≤ q.1 then p :: q :: qs else q :: insertByIndex p qs

/-- The properties in the order `JSON.stringify` visits them: the keys that are
    array indices in ascending numeric order, then the other keys in creation
    order. -/
def enumerationOrder (o : Props) : Props :=
  let indexed := o.filterMap fun p => (arrayIndex p.1).map fun n => (n, p.1, p.2)
  let named := o.filter fun p => (arrayIndex p.1).isNone
  (indexed.foldr insertByIndex []).map (fun q => (q.2.1, q.2.2)) ++ named

/-- The call `JSON.stringify(obj)` on a body object. -/
def JSON_stringify (o : Props) : String :=
  "\x7b" ++ commaSep ((enumerationOrder o).map fun p => quoteJSON p.1 ++ ":" ++ p.2.toJSON)
    ++ "\x7d"

/-! ## Effects and requests -/

/-- The HTTP method of a request; jQuery sends the upper-cased `method`. -/
inductive Method where
  | GET
  | POST
  deriving DecidableEq, Repr, Inhabited

/-- The settings object passed to `$.ajax`, without its two callbacks (the
    `success` callbacks are the functions below). -/
structure Request where
  method : Method
  url : String
  dataType : Option String
  contentType : Option String
  data : Option String
  deriving DecidableEq, Repr, Inhabited

/-- What a handler does that can be observed from outside it. -/
inductive Effect where
  | log (v : JSVal)
  | msg (text : String) (arg : Option JSVal)
  | alert (text : String)
  | stopPropagation
  | preventDefault
  | ajax (r : Request)
  | html (target : String) (tpl : String) (items : JSVal)

/-- The run of a callback: the effects it performed, in order, and the
    exception that ended it, if one did. -/
structure Run where
  effects : List Effect
  thrown : Option JSError

/-- The requests among a list of effects. -/
def requests : List Effect → List Request
  | [] => []
  | .ajax r :: es => r :: requests es
  | _ :: es => requests es

/-- The notices (`layer.msg` texts) among a list of effects. -/
def notices : List Effect → List String
  | [] => []
  | .msg t _ :: es => t :: notices es
  | _ :: es => notices es

/-- The alerts (`layer.alert` texts) among a list of effects. -/
def alerts : List Effect → List String
  | [] => []
  | .alert t :: es => t :: alerts es
  | _ :: es => alerts es

/-- The tables rendered (`$(target).html(...)`) among a list of effects. -/
def rendered : List Effect → List String
  | [] => []
  | .html target _ _ :: es => target :: rendered es
  | _ :: es => rendered es

/-- The serialized form as the JavaScript array of `{name, value}` objects. -/
def fieldsVal (data : List Field) : JSVal :=
  .arr (data.map fun f => .obj [("name", .str f.name), ("value", .str f.value)])

/-! ## The click handlers -/

/-- The click handler of `#btnCreate`. -/
def btnCreate (window_url : String) : List Effect :=
  [.log (.str "创建公私钥"),
   .ajax ⟨.POST, window_url ++ "/api/create_key_pair", none, none, none⟩]

/-- The click handler of `#btnGetKey`. -/
def btnGetKey (window_url : String) : List Effect :=
  [.log (.str "获取公私钥"),
   .ajax ⟨.GET, window_url ++ "/api/get_key_pair", none, none, none⟩]

/-- The object literal `params` of `#btnCreateScript`: the one property
    `account_id`, holding `$('#account_id').val()`. -/
def params (account_id : String) : Props :=
  [("account_id", .text account_id)]

/-- The click handler of `#btnCreateScript`. -/
def btnCreateScript (window_url : String) (account_id : String) : List Effect :=
  [.log (.str "创建脚本"),
   .ajax ⟨.POST, window_url ++ "/api/create_pegin_address", some "json",
     some "application/json", some (JSON_stringify (params account_id))⟩]

/-- The click handler of `#btnGetScript`. -/
def btnGetScript (window_url : String) : List Effect :=
  [.log (.str "获取脚本"),
   .ajax ⟨.GET, window_url ++ "/api/get_pegin_address", none, none, none⟩]

/-- One round of the `$.each` loop of `#btnSendToSide`:
    `obj[this.name] = this.value`. -/
def sendToSideStep (obj : Props) (f : Field) : Props :=
  setProp obj f.name (.text f.value)

/-- The object `obj` that `#btnSendToSide` builds from the serialized form. -/
def sendToSideObj (data : List Field) : Props :=
  data.foldl sendToSideStep []

/-- The click handler of `#btnSendToSide`; `data` is
    `$('#formToSide').serializeArray()`. -/
def btnSendToSide (window_url : String) (data : List Field) : List Effect :=
  [.stopPropagation, .preventDefault,
   .ajax ⟨.POST, window_url ++ "/api/claim_tx", some "json", some "application/json",
     some (JSON_stringify (sendToSideObj data))⟩]

/-- The state of the `$.each` loop of `#btnSendToMain`: the object built so far
    and the effects performed so far. -/
structure LoopState where
  obj : Props
  effects : List Effect

/-- One round of the `$.each` loop of `#btnSendToMain`: the alert when the value
    is empty, then the assignment, of the split value for `root_xpubs` and
    `xprvs` and of the value itself for every other name. -/
def sendToMainStep (st : LoopState) (f : Field) : LoopState :=
  let effects := if f.value = "" then st.effects ++ [.alert "字段不能为空"] else st.effects
  if f.name = "root_xpubs" ∨ f.name = "xprvs" then
    ⟨setProp st.obj f.name (.list (split f.value)), effects⟩
  else
    ⟨setProp st.obj f.name (.text f.value), effects⟩

/-- The whole `$.each` loop of `#btnSendToMain`, from the empty object. -/
def sendToMainLoop (data : List Field) : LoopState :=
  data.foldl sendToMainStep ⟨[], []⟩

/-- The click handler of `#btnSendToMain`; `data` is
    `$('#formToMain').serializeArray()`. -/
def btnSendToMain (window_url : String) (data : List Field) : List Effect :=
  [.stopPropagation, .preventDefault] ++ (sendToMainLoop data).effects ++
    [.ajax ⟨.POST, window_url ++ "/api/send_to_mainchain", some "json",
      some "application/json", some (JSON_stringify (sendToMainLoop data).obj)⟩]

/-! ## The `success` callbacks -/

/-- The `success` callback of `#btnCreate`. -/
def btnCreate_success (H : Host) (data : JSVal) : Run :=
  match getProp data .code with
  | .error e => ⟨[], some e⟩
  | .ok code =>
    match looseEq200 H code with
    | .error e => ⟨[], some e⟩
    | .ok true => ⟨[.log data, .msg "创建成功" none], none⟩
    | .ok false =>
      match getProp data .msg with
      | .error e => ⟨[.log data], some e⟩
      | .ok m => ⟨[.log data, .msg "创建失败" (some m)], none⟩

/-- The `success` callback of `#btnCreateScript`. -/
def btnCreateScript_success (H : Host) (data : JSVal) : Run :=
  match getProp data .code with
  | .error e => ⟨[], some e⟩
  | .ok code =>
    match looseEq200 H code with
    | .error e => ⟨[], some e⟩
    | .ok true => ⟨[.log data, .msg "创建成功" none], none⟩
    | .ok false =>
      match getProp data .msg with
      | .error e => ⟨[.log data], some e⟩
      | .ok m => ⟨[.log data, .msg "创建失败" (some m)], none⟩

/-- The `success` callback of `#btnGetKey` (and of `appendKey`). -/
def btnGetKey_success (H : Host) (res : JSVal) : Run :=
  match getProp res .data with
  | .error e => ⟨[.log res, .msg "获取key pair成功" none], some e⟩
  | .ok d =>
    match H.JSON_parse d with
    | .error e => ⟨[.log res, .msg "获取key pair成功" none], some e⟩
    | .ok items =>
      ⟨[.log res, .msg "获取key pair成功" none, .html ".key-pair-table" "#keypairTpl" items],
        none⟩

/-- The `success` callback of `#btnGetScript` (and of `appendAddress`). -/
def btnGetScript_success (H : Host) (res : JSVal) : Run :=
  match getProp res .data with
  | .error e => ⟨[.log res, .msg "获取key pair成功" none], some e⟩
  | .ok d =>
    match H.JSON_parse d with
    | .error e => ⟨[.log res, .msg "获取key pair成功" none], some e⟩
    | .ok items =>
      ⟨[.log res, .msg "获取key pair成功" none,
        .html ".pegin-address-table" "#peginAddressTpl" items], none⟩

/-- The `success` callback of `#btnSendToSide`; `data` is the serialized form
    the click handler holds, `res` the response. -/
def btnSendToSide_success (H : Host) (data : List Field) (res : JSVal) : Run :=
  match getProp res .code with
  | .error e => ⟨[], some e⟩
  | .ok code =>
    match looseEq200 H code with
    | .error e => ⟨[], some e⟩
    | .ok true => ⟨[.log res, .msg "cliam tx success" none], none⟩
    | .ok false =>
      match getProp (fieldsVal data) .msg with
      | .error e => ⟨[.log (fieldsVal data)], some e⟩
      | .ok m => ⟨[.log (fieldsVal data), .msg "创建失败" (some m)], none⟩

/-- The `success` callback of `#btnSendToMain`; `data` is the serialized form
    the click handler holds, `res` the response. -/
def btnSendToMain_success (data : List Field) (res : JSVal) : Run :=
  match getProp res .code with
  | .error e => ⟨[], some e⟩
  | .ok code =>
    if ToBoolean code then ⟨[.log res, .msg "send to mainchain success" none], none⟩
    else
      match getProp (fieldsVal data) .msg with
      | .error e => ⟨[.log (fieldsVal data)], some e⟩
      | .ok m => ⟨[.log (fieldsVal data), .msg "创建失败" (some m)], none⟩

/-! ## Conditions of the callbacks -/

/-- The evaluation of the condition `res.code == 200`: its truth value, or the
    exception thrown by the property read or by the conversion of `code`. -/
def codeIs200 (H : Host) (res : JSVal) : Except JSError Bool :=
  match getProp res .code with
  | .error e => .error e
  | .ok code => looseEq200 H code

/-- The evaluation of the condition `res.code` of `#btnSendToMain`: its truth
    value, or the exception thrown by the property read. -/
def codeTruthy (res : JSVal) : Except JSError Bool :=
  match getProp res .code with
  | .error e => .error e
  | .ok code => .ok (ToBoolean code)

/-- The two buttons whose `success` callback holds the serialized form. -/
inductive FormButton where
  | btnSendToSide
  | btnSendToMain
  deriving DecidableEq, Repr, Inhabited

/-- The `success` callback of a form button. -/
def formSuccess (H : Host) : FormButton → List Field → JSVal → Run
  | .btnSendToSide, data, res => btnSendToSide_success H data res
  | .btnSendToMain, data, res => btnSendToMain_success data res

/-- The condition of the `if` in the callback of a form button. -/
def formCondition (H : Host) : FormButton → JSVal → Except JSError Bool
  | .btnSendToSide, res => codeIs200 H res
  | .btnSendToMain, res => codeTruthy res

/-- The response makes the callback of a form button take its `else` branch:
    its condition evaluates, without an exception, to false. -/
def takesFailureBranch (H : Host) (b : FormButton) (res : JSVal) : Bool :=
  match formCondition H b res with
  | .ok false => true
  | _ => false

/-! ## The withdraw loop without its empty-value check -/

/-- One round of the loop of `#btnSendToMain` with the statement
    `if (this.value == "") layer.alert(...)` removed: the assignment alone. -/
def sendToMainStep_noCheck (obj : Props) (f : Field) : Props :=
  if f.name = "root_xpubs" ∨ f.name = "xprvs" then
    setProp obj f.name (.list (split f.value))
  else
    setProp obj f.name (.text f.value)

/-- The click handler of `#btnSendToMain` with the empty-value check removed
    from its loop. -/
def btnSendToMain_noCheck (window_url : String) (data : List Field) : List Effect :=
  [.stopPropagation, .preventDefault,
   .ajax ⟨.POST, window_url ++ "/api/send_to_mainchain", some "json",
     some "application/json", some (JSON_stringify (data.foldl sendToMainStep_noCheck []))⟩]

/-! ## The documented interface -/

/-- The six operations of the interface table. -/
inductive Operation where
  | createKeyPair
  | listKeyPairs
  | createPeginAddress
  | listPeginAddresses
  | claim
  | withdraw
  deriving DecidableEq, Repr, Inhabited

/-- The method and path columns of the interface table of the specification
    (section 6), row by row. -/
def documentedInterface : Operation → Method × String
  | .createKeyPair => (.POST, "/api/create_key_pair")
  | .listKeyPairs => (.GET, "/api/get_key_pair")
  | .createPeginAddress => (.POST, "/api/create_pegin_address")
  | .listPeginAddresses => (.GET, "/api/get_pegin_address")
  | .claim => (.POST, "/api/claim_tx")
  | .withdraw => (.POST, "/api/send_to_mainchain")

/-- What the click handlers read from the page: the base `window.url`, the value
    of the `#account_id` input, and the two serialized forms. -/
structure Page where
  window_url : String
  account_id : String
  formToSide : List Field
  formToMain : List Field

/-- The click handler bound to the button of an operation. -/
def click (op : Operation) (page : Page) : List Effect :=
  match op with
  | .createKeyPair => btnCreate page.window_url
  | .listKeyPairs => btnGetKey page.window_url
  | .createPeginAddress => btnCreateScript page.window_url page.account_id
  | .listPeginAddresses => btnGetScript page.window_url
  | .claim => btnSendToSide page.window_url page.formToSide
  | .withdraw => btnSendToMain page.window_url page.formToMain

/-! ## Lemmas: `split` -/

theorem splitChars_ne_nil (cs : List Char) : splitChars cs ≠ [] := by
  cases cs with
  | nil => simp [splitChars]
  | cons c cs =>
    unfold splitChars
    split
    · simp
    · split <;> simp

theorem splitChars_length (cs : List Char) :
    (splitChars cs).length = cs.count ',' + 1 := by
  induction cs with
  | nil => simp [splitChars]
  | cons c cs ih =>
    unfold splitChars
    by_cases hc : c = ','
    · subst hc
      simp [ih]
    · have hne : (c == ',') = false := by simpa using hc
      rw [if_neg hc, List.count_cons, hne]
      cases hs : splitChars cs with
      | nil => exact absurd hs (splitChars_ne_nil cs)
      | cons seg segs =>
        rw [hs] at ih
        simpa using ih

theorem splitChars_comma_free (cs : List Char) :
    ∀ seg ∈ splitChars cs, ',' ∉ seg := by
  induction cs with
  | nil => simp [splitChars]
  | cons c cs ih =>
    unfold splitChars
    by_cases hc : c = ','
    · rw [if_pos hc]
      intro seg hseg
      rcases List.mem_cons.mp hseg with h | h
      · subst h; simp
      · exact ih seg h
    · rw [if_neg hc]
      cases hs : splitChars cs with
      | nil => exact absurd hs (splitChars_ne_nil cs)
      | cons seg segs =>
        rw [hs] at ih
        intro seg' hseg'
        rcases List.mem_cons.mp hseg' with h | h
        · subst h
          have := ih seg (List.mem_cons_self _ _)
          intro hmem
          rcases List.mem_cons.mp hmem with h1 | h1
          · exact hc h1.symm
          · exact this h1
        · exact ih seg' (List.mem_cons_of_mem _ h)

theorem join_map_mk_cons_char (c : Char) (seg : List Char) (segs : List (List Char)) :
    join (((c :: seg) :: segs).map String.mk) =
      String.mk [c] ++ join ((seg :: segs).map String.mk) := by
  cases segs with
  | nil => simp only [List.map, join]; rfl
  | cons t rest =>
    simp only [List.map, join]
    apply String.ext
    simp [String.data_append]

theorem join_map_mk_nil_cons (segs : List (List Char)) (h : segs ≠ []) :
    join ((([] : List Char) :: segs).map String.mk) =
      String.mk [','] ++ join (segs.map String.mk) := by
  cases segs with
  | nil => exact absurd rfl h
  | cons t rest =>
    simp only [List.map, join]
    apply String.ext
    simp [String.data_append]

theorem join_splitChars (cs : List Char) :
    join ((splitChars cs).map String.mk) = String.mk cs := by
  induction cs with
  | nil => simp [splitChars, join]
  | cons c cs ih =>
    unfold splitChars
    by_cases hc : c = ','
    · rw [if_pos hc, join_map_mk_nil_cons _ (splitChars_ne_nil cs), ih, hc]
      rfl
    · rw [if_neg hc]
      cases hs : splitChars cs with
      | nil => exact absurd hs (splitChars_ne_nil cs)
      | cons seg segs =>
        rw [hs] at ih
        simp only
        rw [join_map_mk_cons_char, ih]
        rfl

theorem splitChars_of_comma_free (cs : List Char) (h : ',' ∉ cs) : splitChars cs = [cs] := by
  induction cs with
  | nil => rfl
  | cons c cs ih =>
    have hc : c ≠ ',' := fun e => h (by simp [e])
    have hcs : ',' ∉ cs := fun e => h (List.mem_cons_of_mem _ e)
    unfold splitChars
    rw [if_neg hc, ih hcs]

/-! ## Lemmas: the body object -/

theorem getOwn_putOwn (o : Props) (k : String) (v : BodyVal) (k' : String) :
    getOwn (putOwn k v o) k' = if k' = k then some v else getOwn o k' := by
  induction o with
  | nil =>
    by_cases h : k' = k
    · simp [putOwn, getOwn, List.lookup, h]
    · have hb : (k' == k) = false := by simpa using h
      simp [putOwn, getOwn, List.lookup, h, hb]
  | cons p rest ih =>
    obtain ⟨k0, v0⟩ := p
    unfold putOwn
    by_cases h0 : k0 = k
    · rw [if_pos h0]
      subst h0
      by_cases h : k' = k0
      · simp [getOwn, List.lookup, h]
      · have hb : (k' == k0) = false := by simpa using h
        simp [getOwn, List.lookup, h, hb]
    · rw [if_neg h0]
      by_cases h : k' = k0
      · have hk : k' ≠ k := fun e => h0 (h.symm.trans e)
        simp [getOwn, List.lookup, h, h0]
      · have hb : (k' == k0) = false := by simpa using h
        have := ih
        simp only [getOwn] at this ⊢
        simp [List.lookup, hb, this]

theorem getOwn_setProp (o : Props) (k : String) (v : BodyVal) (k' : String) :
    getOwn (setProp o k v) k' =
      if k = "__proto__" then getOwn o k' else if k' = k then some v else getOwn o k' := by
  unfold setProp
  by_cases h : k = "__proto__"
  · simp [h]
  · simp [h, getOwn_putOwn]

theorem mem_ownKeys_iff (o : Props) (k : String) :
    k ∈ ownKeys o ↔ getOwn o k ≠ none := by
  induction o with
  | nil => simp [ownKeys, getOwn, List.lookup]
  | cons p rest ih =>
    obtain ⟨k0, v0⟩ := p
    by_cases h : k = k0
    · simp [ownKeys, getOwn, List.lookup, h]
    · have hb : (k == k0) = false := by simpa using h
      simp only [ownKeys, getOwn] at ih ⊢
      simp [List.lookup, hb, h, ih]

theorem lastValue_cons (k : String) (f : Field) (fs : List Field) :
    lastValue k (f :: fs) =
      match lastValue k fs with
      | some v => some v
      | none => if f.name = k then some f.value else none := rfl

theorem lastValue_eq_none_iff (k : String) (data : List Field) :
    lastValue k data = none ↔ ∀ f ∈ data, f.name ≠ k := by
  induction data with
  | nil => simp [lastValue]
  | cons f fs ih =>
    rw [lastValue_cons]
    cases hl : lastValue k fs with
    | some v =>
      have : ¬ ∀ f ∈ fs, f.name ≠ k := fun hall => by
        rw [ih.mpr hall] at hl; cases hl
      simp only [List.mem_cons, forall_eq_or_imp]
      constructor
      · intro h; cases h
      · intro h; exact absurd h.2 this
    | none =>
      have hall := ih.mp hl
      simp only [List.mem_cons, forall_eq_or_imp]
      by_cases hf : f.name = k
      · simp [hf]
      · simpa [hf] using hall

/-- The value the withdraw loop assigns for a field named `k` with value `v`. -/
theorem sendToMainStep_obj (st : LoopState) (f : Field) :
    (sendToMainStep st f).obj =
      setProp st.obj f.name
        (if f.name = "root_xpubs" ∨ f.name = "xprvs" then .list (split f.value)
         else .text f.value) := by
  unfold sendToMainStep
  by_cases h : f.name = "root_xpubs" ∨ f.name = "xprvs"
  · simp only [if_pos h]
  · simp only [if_neg h]

theorem getOwn_foldl_sendToSideStep (data : List Field) (o : Props) (k : String) :
    getOwn (data.foldl sendToSideStep o) k =
      if k = "__proto__" then getOwn o k
      else match lastValue k data with
        | some v => some (.text v)
        | none => getOwn o k := by
  induction data generalizing o with
  | nil => simp [lastValue]
  | cons f fs ih =>
    rw [List.foldl_cons, ih]
    by_cases hp : k = "__proto__"
    · simp only [if_pos hp]
      unfold sendToSideStep
      rw [getOwn_setProp]
      by_cases hf : f.name = "__proto__"
      · simp [hf]
      · have : k ≠ f.name := fun e => hf (e ▸ hp)
        simp [hf, this]
    · simp only [if_neg hp]
      rw [lastValue_cons]
      cases hl : lastValue k fs with
      | some v => rfl
      | none =>
        simp only
        unfold sendToSideStep
        rw [getOwn_setProp]
        by_cases hf : f.name = k
        · have hfp : f.name ≠ "__proto__" := fun e => hp (hf ▸ e)
          simp [hf, hfp, hp]
        · have hkf : k ≠ f.name := fun e => hf e.symm
          rw [if_neg hf]
          by_cases hfp : f.name = "__proto__"
          · simp [hfp]
          · simp [hfp, hkf]

theorem getOwn_foldl_sendToMainStep (data : List Field) (st : LoopState) (k : String) :
    getOwn (data.foldl sendToMainStep st).obj k =
      if k = "__proto__" then getOwn st.obj k
      else match lastValue k data with
        | some v => some (if k = "root_xpubs" ∨ k = "xprvs" then .list (split v) else .text v)
        | none => getOwn st.obj k := by
  induction data generalizing st with
  | nil => simp [lastValue]
  | cons f fs ih =>
    rw [List.foldl_cons, ih]
    by_cases hp : k = "__proto__"
    · simp only [if_pos hp]
      rw [sendToMainStep_obj, getOwn_setProp]
      by_cases hf : f.name = "__proto__"
      · simp [hf]
      · have : k ≠ f.name := fun e => hf (e ▸ hp)
        simp [hf, this]
    · simp only [if_neg hp]
      rw [lastValue_cons]
      cases hl : lastValue k fs with
      | some v => rfl
      | none =>
        simp only
        rw [sendToMainStep_obj, getOwn_setProp]
        by_cases hf : f.name = k
        · have hfp : f.name ≠ "__proto__" := fun e => hp (hf ▸ e)
          subst hf
          simp [hfp]
        · have hkf : k ≠ f.name := fun e => hf e.symm
          rw [if_neg hf]
          by_cases hfp : f.name = "__proto__"
          · simp [hfp]
          · simp [hfp, hkf]

/-! ## Lemmas: key sets and the loops -/

theorem putOwn_keys_nodup (k : String) (v : BodyVal) (o : Props)
    (h : (ownKeys o).Nodup) : (ownKeys (putOwn k v o)).Nodup := by
  induction o with
  | nil => simp [putOwn, ownKeys]
  | cons p rest ih =>
    obtain ⟨k0, v0⟩ := p
    have hrest : (ownKeys rest).Nodup := (List.nodup_cons.mp h).2
    have hk0 : k0 ∉ ownKeys rest := (List.nodup_cons.mp h).1
    unfold putOwn
    by_cases h0 : k0 = k
    · rw [if_pos h0]
      subst h0
      exact h
    · rw [if_neg h0]
      have hmem : k0 ∉ ownKeys (putOwn k v rest) := by
        rw [mem_ownKeys_iff, getOwn_putOwn, if_neg h0, ← mem_ownKeys_iff]
        exact hk0
      exact List.nodup_cons.mpr ⟨hmem, ih hrest⟩

theorem setProp_keys_nodup (k : String) (v : BodyVal) (o : Props)
    (h : (ownKeys o).Nodup) : (ownKeys (setProp o k v)).Nodup := by
  unfold setProp
  split
  · exact h
  · exact putOwn_keys_nodup k v o h

theorem foldl_sendToSideStep_nodup (data : List Field) (o : Props)
    (h : (ownKeys o).Nodup) : (ownKeys (data.foldl sendToSideStep o)).Nodup := by
  induction data generalizing o with
  | nil => exact h
  | cons f fs ih => exact ih _ (setProp_keys_nodup _ _ _ h)

theorem foldl_sendToMainStep_nodup (data : List Field) (st : LoopState)
    (h : (ownKeys st.obj).Nodup) :
    (ownKeys (data.foldl sendToMainStep st).obj).Nodup := by
  induction data generalizing st with
  | nil => exact h
  | cons f fs ih =>
    rw [List.foldl_cons]
    apply ih
    rw [sendToMainStep_obj]
    exact setProp_keys_nodup _ _ _ h

theorem requests_append (xs ys : List Effect) :
    requests (xs ++ ys) = requests xs ++ requests ys := by
  induction xs with
  | nil => rfl
  | cons e es ih => cases e <;> simp [requests, ih]

theorem alerts_append (xs ys : List Effect) :
    alerts (xs ++ ys) = alerts xs ++ alerts ys := by
  induction xs with
  | nil => rfl
  | cons e es ih => cases e <;> simp [alerts, ih]

/-- The loop of `#btnSendToMain` performs alerts only, one for each field whose
    value is empty, whatever effects came before. -/
theorem foldl_sendToMainStep_effects (data : List Field) (st : LoopState) :
    (data.foldl sendToMainStep st).effects =
      st.effects ++
        List.replicate (data.countP fun f => f.value = "") (Effect.alert "字段不能为空") := by
  induction data generalizing st with
  | nil => simp
  | cons f fs ih =>
    rw [List.foldl_cons, ih]
    have hst : (sendToMainStep st f).effects =
        if f.value = "" then st.effects ++ [Effect.alert "字段不能为空"] else st.effects := by
      unfold sendToMainStep
      by_cases h : f.name = "root_xpubs" ∨ f.name = "xprvs"
      · simp only [if_pos h]
      · simp only [if_neg h]
    rw [hst, List.countP_cons]
    by_cases hv : f.value = ""
    · simp [hv, List.replicate_succ]
    · simp [hv]

theorem foldl_sendToMainStep_obj (data : List Field) (st : LoopState) :
    (data.foldl sendToMainStep st).obj = data.foldl sendToMainStep_noCheck st.obj := by
  induction data generalizing st with
  | nil => rfl
  | cons f fs ih =>
    rw [List.foldl_cons, List.foldl_cons, ih, sendToMainStep_obj]
    unfold sendToMainStep_noCheck
    by_cases h : f.name = "root_xpubs" ∨ f.name = "xprvs"
    · simp only [if_pos h]
    · simp only [if_neg h]

theorem requests_replicate_alert (n : Nat) (t : String) :
    requests (List.replicate n (Effect.alert t)) = [] := by
  induction n with
  | zero => rfl
  | succ n ih => simp [List.replicate_succ, requests, ih]

theorem alerts_replicate_alert (n : Nat) (t : String) :
    alerts (List.replicate n (Effect.alert t)) = List.replicate n t := by
  induction n with
  | zero => rfl
  | succ n ih => simp [List.replicate_succ, alerts, ih]

theorem requests_btnSendToMain (window_url : String) (data : List Field) :
    requests (btnSendToMain window_url data) =
      [⟨.POST, window_url ++ "/api/send_to_mainchain", some "json", some "application/json",
        some (JSON_stringify (sendToMainLoop data).obj)⟩] := by
  unfold btnSendToMain
  rw [requests_append, requests_append]
  have : (sendToMainLoop data).effects =
      List.replicate (data.countP fun f => f.value = "") (Effect.alert "字段不能为空") := by
    unfold sendToMainLoop
    rw [foldl_sendToMainStep_effects]
    simp
  rw [this, requests_replicate_alert]
  simp [requests]

theorem splitChars_cons (c : Char) (cs : List Char) :
    splitChars (c :: cs) =
      if c = ',' then [] :: splitChars cs
      else
        match splitChars cs with
        | [] => [[c]]
        | seg :: segs => (c :: seg) :: segs := by
  rw [splitChars]

theorem splitChars_append_comma (seg cs : List Char) (h : ',' ∉ seg) :
    splitChars (seg ++ ',' :: cs) = seg :: splitChars cs := by
  induction seg with
  | nil => simp [splitChars]
  | cons c seg ih =>
    have hc : c ≠ ',' := fun e => h (by simp [e])
    have hseg : ',' ∉ seg := fun e => h (List.mem_cons_of_mem _ e)
    rw [List.cons_append, splitChars_cons, if_neg hc, ih hseg]

theorem split_join (segs : List String) (hne : segs ≠ [])
    (hfree : ∀ s ∈ segs, ',' ∉ s.data) : split (join segs) = segs := by
  induction segs with
  | nil => exact absurd rfl hne
  | cons s rest ih =>
    cases rest with
    | nil =>
      have hs : ',' ∉ s.data := hfree s (List.mem_cons_self _ _)
      simp only [join, split]
      rw [splitChars_of_comma_free _ hs]
      rfl
    | cons t rest =>
      have hs : ',' ∉ s.data := hfree s (List.mem_cons_self _ _)
      have ih' := ih (by simp) (fun x hx => hfree x (List.mem_cons_of_mem _ hx))
      have hdata : (join (s :: t :: rest)).data = s.data ++ ',' :: (join (t :: rest)).data := by
        simp [join, String.data_append]
      unfold split at ih' ⊢
      rw [hdata, splitChars_append_comma _ _ hs, List.map_cons, ih']

/-! ## Lemmas: property reads -/

theorem getProp_fieldsVal (data : List Field) (k : PropName) :
    getProp (fieldsVal data) k = .ok .undefined := rfl

theorem getProp_ok_of_ok {v c : JSVal} {k : PropName} (h : getProp v k = .ok c)
    (k' : PropName) : ∃ m, getProp v k' = .ok m := by
  cases v <;> first
    | (simp [getProp] at h; done)
    | exact ⟨_, rfl⟩

/-! ## The claims -/

/-- C7. The comma split is lossless and never yields an empty list: for every
    string `v` the segments of `v.split(",")` contain no comma, joining them
    with `","` gives back `v`, and there is one segment more than `v` has
    commas; so the list is never empty, the empty string yields `[""]`, a
    string without a comma yields `[v]`, and the list the withdraw loop stores
    for a last field named `root_xpubs` or `xprvs` is that non-empty
    list, for an empty value too. The segments are the only such list: the
    split of the join of comma-free strings is the strings themselves. -/
theorem split_lossless (v : String) :
    (∀ s ∈ split v, ',' ∉ s.data) ∧
    join (split v) = v ∧
    (split v).length = commaCount v + 1 ∧
    split v ≠ [] ∧
    split "" = [""] ∧
    (commaCount v = 0 → split v = [v]) ∧
    (∀ (data : List Field) (k : String), k = "root_xpubs" ∨ k = "xprvs" →
      getOwn (sendToMainLoop (data ++ [⟨k, v⟩])).obj k = some (.list (split v))) ∧
    (∀ (data : List Field) (k : String), k = "root_xpubs" ∨ k = "xprvs" →
      getOwn (sendToMainLoop (data ++ [⟨k, ""⟩])).obj k = some (.list [""])) ∧
    (∀ segs : List String, segs ≠ [] → (∀ s ∈ segs, ',' ∉ s.data) →
      join segs = v → split v = segs) := by
  have hlast : ∀ (w : String) (data : List Field) (k : String), k = "root_xpubs" ∨ k = "xprvs" →
      getOwn (sendToMainLoop (data ++ [⟨k, w⟩])).obj k = some (.list (split w)) := by
    intro w data k hk
    have hp : k ≠ "__proto__" := by
      rcases hk with h | h <;> subst h <;> decide
    unfold sendToMainLoop
    rw [List.foldl_append, List.foldl_cons, List.foldl_nil, sendToMainStep_obj,
      getOwn_setProp]
    simp [hp, hk]
  refine ⟨?_, ?_, ?_, ?_, ?_, ?_, hlast v, ?_, ?_⟩
  · intro s hs
    unfold split at hs
    obtain ⟨seg, hseg, rfl⟩ := List.mem_map.mp hs
    exact splitChars_comma_free v.data seg hseg
  · unfold split
    rw [join_splitChars]
  · unfold split commaCount
    rw [List.length_map, splitChars_length]
  · unfold split
    intro h
    exact splitChars_ne_nil v.data (List.map_eq_nil_iff.mp h)
  · rfl
  · intro h
    unfold split
    have hfree : ',' ∉ v.data := by
      unfold commaCount at h
      exact List.count_eq_zero.mp h
    rw [splitChars_of_comma_free _ hfree]
    rfl
  · intro data k hk
    exact hlast "" data k hk
  · intro segs hne hfree hjoin
    rw [← hjoin]
    exact split_join segs hne hfree

/-- C1 (amended). The withdraw handler issues one POST to
    `/api/send_to_mainchain` whose body is the JSON text of an object with
    exactly these properties: for every field name `k` of the form other than
    `__proto__`, the property `k`, holding for `root_xpubs` and `xprvs` the
    ordered list of the comma-separated segments of the value of the last
    field named `k`, and for every other name that value unchanged. The keys
    of the object are exactly the field names other than `__proto__`, each
    key once; a field named `__proto__` gives no property. So a form with two
    fields of one name is sent with that name once, holding the second
    value. -/
theorem sendToMain_body (window_url : String) (data : List Field) :
    requests (btnSendToMain window_url data) =
      [⟨.POST, window_url ++ "/api/send_to_mainchain", some "json", some "application/json",
        some (JSON_stringify (sendToMainLoop data).obj)⟩] ∧
    (∀ k : String, getOwn (sendToMainLoop data).obj k =
      if k = "__proto__" then none
      else (lastValue k data).map fun v =>
        if k = "root_xpubs" ∨ k = "xprvs" then BodyVal.list (split v) else BodyVal.text v) ∧
    (∀ k : String, k ∈ ownKeys (sendToMainLoop data).obj ↔
      k ≠ "__proto__" ∧ ∃ f ∈ data, f.name = k) ∧
    (ownKeys (sendToMainLoop data).obj).Nodup ∧
    (sendToMainLoop [⟨"amount", "1"⟩, ⟨"root_xpubs", "a,b"⟩, ⟨"amount", "2"⟩]).obj =
      [("amount", .text "2"), ("root_xpubs", .list ["a", "b"])] ∧
    requests (btnSendToMain window_url
        [⟨"amount", "1"⟩, ⟨"root_xpubs", "a,b"⟩, ⟨"amount", "2"⟩]) =
      [⟨.POST, window_url ++ "/api/send_to_mainchain", some "json", some "application/json",
        some "\x7b\"amount\":\"2\",\"root_xpubs\":[\"a\",\"b\"]\x7d"⟩] := by
  have hget : ∀ k : String, getOwn (sendToMainLoop data).obj k =
      if k = "__proto__" then none
      else (lastValue k data).map fun v =>
        if k = "root_xpubs" ∨ k = "xprvs" then BodyVal.list (split v)
        else BodyVal.text v := by
    intro k
    unfold sendToMainLoop
    rw [getOwn_foldl_sendToMainStep]
    by_cases hp : k = "__proto__"
    · simp [hp, getOwn]
    · simp only [if_neg hp]
      cases lastValue k data <;> simp [getOwn]
  refine ⟨requests_btnSendToMain window_url data, hget, ?_, ?_, by decide, ?_⟩
  · intro k
    rw [mem_ownKeys_iff, hget]
    by_cases hp : k = "__proto__"
    · simp [hp]
    · rw [if_neg hp]
      have hnone : Option.map (fun v =>
            if k = "root_xpubs" ∨ k = "xprvs" then BodyVal.list (split v)
            else BodyVal.text v) (lastValue k data) = none ↔
          ∀ f ∈ data, f.name ≠ k := by
        rw [← lastValue_eq_none_iff]
        cases lastValue k data <;> simp
      rw [ne_eq, hnone]
      push_neg
      exact ⟨fun h => ⟨hp, h⟩, fun h => h.2⟩
  · unfold sendToMainLoop
    exact foldl_sendToMainStep_nodup data ⟨[], []⟩ (by simp [ownKeys])
  · rw [requests_btnSendToMain]
    have : JSON_stringify (sendToMainLoop
        [⟨"amount", "1"⟩, ⟨"root_xpubs", "a,b"⟩, ⟨"amount", "2"⟩]).obj =
        "\x7b\"amount\":\"2\",\"root_xpubs\":[\"a\",\"b\"]\x7d" := by decide
    rw [this]

/-- C1, as stated, fails on two forms. A field named `__proto__` is mapped to
    nothing: the object has no property at all and the body is the empty
    object. Of two fields with one name the first is not mapped to its value:
    the property holds the value of the second. -/
theorem sendToMain_body_counterexample :
    getOwn (sendToMainLoop [⟨"__proto__", "x"⟩]).obj "__proto__" = none ∧
    requests (btnSendToMain "" [⟨"__proto__", "x"⟩]) =
      [⟨.POST, "/api/send_to_mainchain", some "json", some "application/json",
        some "\x7b\x7d"⟩] ∧
    getOwn (sendToMainLoop [⟨"amount", "1"⟩, ⟨"amount", "2"⟩]).obj "amount" =
      some (.text "2") := by
  refine ⟨by decide, by decide, by decide⟩

/-- C8 (amended). The claim handler issues one POST to `/api/claim_tx` whose
    body is the JSON text of the object whose keys are exactly the field names
    of the form other than `__proto__`, each key once, and whose value for a
    name is the unmodified value string of the last field with that name. No
    field is dropped for being empty and no other key is added; a field named
    `__proto__` gives no key. -/
theorem sendToSide_body (window_url : String) (data : List Field) :
    requests (btnSendToSide window_url data) =
      [⟨.POST, window_url ++ "/api/claim_tx", some "json", some "application/json",
        some (JSON_stringify (sendToSideObj data))⟩] ∧
    (∀ k : String, getOwn (sendToSideObj data) k =
      if k = "__proto__" then none else (lastValue k data).map BodyVal.text) ∧
    (∀ k : String, k ∈ ownKeys (sendToSideObj data) ↔
      k ≠ "__proto__" ∧ ∃ f ∈ data, f.name = k) ∧
    (ownKeys (sendToSideObj data)).Nodup := by
  have hget : ∀ k : String, getOwn (sendToSideObj data) k =
      if k = "__proto__" then none else (lastValue k data).map BodyVal.text := by
    intro k
    unfold sendToSideObj
    rw [getOwn_foldl_sendToSideStep]
    by_cases hp : k = "__proto__"
    · simp [hp, getOwn]
    · simp only [if_neg hp]
      cases lastValue k data <;> simp [getOwn]
  refine ⟨rfl, hget, ?_, ?_⟩
  · intro k
    rw [mem_ownKeys_iff, hget]
    by_cases hp : k = "__proto__"
    · simp [hp]
    · rw [if_neg hp]
      have hnone : Option.map BodyVal.text (lastValue k data) = none ↔
          ∀ f ∈ data, f.name ≠ k := by
        rw [← lastValue_eq_none_iff]
        cases lastValue k data <;> simp
      rw [ne_eq, hnone]
      push_neg
      exact ⟨fun h => ⟨hp, h⟩, fun h => h.2⟩
  · unfold sendToSideObj
    exact foldl_sendToSideStep_nodup data [] (by simp [ownKeys])

/-- C8, as stated, fails on a form with a field named `__proto__`: the name
    occurs in the form and is no key of the object, which has no key at all;
    the body sent is the empty object. -/
theorem sendToSide_body_counterexample :
    getOwn (sendToSideObj [⟨"__proto__", "x"⟩]) "__proto__" = none ∧
    ownKeys (sendToSideObj [⟨"__proto__", "x"⟩]) = [] ∧
    requests (btnSendToSide "" [⟨"__proto__", "x"⟩]) =
      [⟨.POST, "/api/claim_tx", some "json", some "application/json", some "\x7b\x7d"⟩] := by
  refine ⟨by decide, by decide, by decide⟩

/-- C9. The empty-field check of the withdraw handler is advisory only: the
    handler raises one "field must not be empty" alert for each field whose
    value is the empty string and no other alert; the object it builds, the
    requests it issues and the one POST among them are those of the same
    handler with the check removed; and the round of an empty field performs
    the same assignment as any other, of `""`, or of `[""]` for `root_xpubs`
    and `xprvs`, so that the body holds that value under every name, other
    than `__proto__`, whose last field is empty. -/
theorem empty_check_is_advisory (window_url : String) (data : List Field) :
    alerts (btnSendToMain window_url data) =
      List.replicate (data.countP fun f => f.value = "") "字段不能为空" ∧
    (alerts (btnSendToMain window_url data)).length =
      (data.filter fun f => f.value = "").length ∧
    (sendToMainLoop data).obj = data.foldl sendToMainStep_noCheck [] ∧
    requests (btnSendToMain window_url data) =
      requests (btnSendToMain_noCheck window_url data) ∧
    (requests (btnSendToMain window_url data)).length = 1 ∧
    (∀ (st : LoopState) (k : String), (sendToMainStep st ⟨k, ""⟩).obj =
      setProp st.obj k
        (if k = "root_xpubs" ∨ k = "xprvs" then BodyVal.list [""] else BodyVal.text "")) ∧
    (∀ k : String, k ≠ "__proto__" → lastValue k data = some "" →
      getOwn (sendToMainLoop data).obj k =
        some (if k = "root_xpubs" ∨ k = "xprvs" then BodyVal.list [""]
          else BodyVal.text "")) := by
  have hobj : (sendToMainLoop data).obj = data.foldl sendToMainStep_noCheck [] := by
    unfold sendToMainLoop
    rw [foldl_sendToMainStep_obj]
  have halerts : alerts (btnSendToMain window_url data) =
      List.replicate (data.countP fun f => f.value = "") "字段不能为空" := by
    unfold btnSendToMain sendToMainLoop
    rw [alerts_append, alerts_append, foldl_sendToMainStep_effects]
    simp [alerts, alerts_replicate_alert]
  refine ⟨halerts, ?_, hobj, ?_, ?_, ?_, ?_⟩
  · rw [halerts, List.length_replicate, List.countP_eq_length_filter]
  · rw [requests_btnSendToMain, hobj]
    rfl
  · rw [requests_btnSendToMain]
    rfl
  · intro st k
    rw [sendToMainStep_obj]
    rfl
  · intro k hp hlast
    unfold sendToMainLoop
    rw [getOwn_foldl_sendToMainStep, if_neg hp, hlast]
    rfl

/-- C2. A form with an empty field is posted all the same: whatever the
    other fields, the withdraw handler raises the alert for the empty one and
    then issues its POST. On a form whose `destination_address` is empty the
    alert is raised once and the body sent holds the empty value. -/
theorem empty_destination_still_posted (window_url : String) :
    (∀ (before after : List Field) (k : String),
      alerts (btnSendToMain window_url (before ++ ⟨k, ""⟩ :: after)) ≠ [] ∧
      requests (btnSendToMain window_url (before ++ ⟨k, ""⟩ :: after)) =
        [⟨.POST, window_url ++ "/api/send_to_mainchain", some "json",
          some "application/json",
          some (JSON_stringify (sendToMainLoop (before ++ ⟨k, ""⟩ :: after)).obj)⟩]) ∧
    alerts (btnSendToMain window_url
      [⟨"destination_address", ""⟩, ⟨"amount", "1"⟩, ⟨"root_xpubs", "xpubA,xpubB"⟩,
        ⟨"xprvs", "xprvA"⟩]) = ["字段不能为空"] ∧
    requests (btnSendToMain window_url
      [⟨"destination_address", ""⟩, ⟨"amount", "1"⟩, ⟨"root_xpubs", "xpubA,xpubB"⟩,
        ⟨"xprvs", "xprvA"⟩]) =
      [⟨.POST, window_url ++ "/api/send_to_mainchain", some "json", some "application/json",
        some ("\x7b\"destination_address\":\"\",\"amount\":\"1\"," ++
          "\"root_xpubs\":[\"xpubA\",\"xpubB\"],\"xprvs\":[\"xprvA\"]\x7d")⟩] := by
  refine ⟨?_, rfl, ?_⟩
  · intro before after k
    refine ⟨?_, requests_btnSendToMain _ _⟩
    have hcount : 0 < (before ++ ⟨k, ""⟩ :: after).countP fun f => f.value = "" := by
      rw [List.countP_pos_iff]
      exact ⟨⟨k, ""⟩, by simp, by simp⟩
    have halerts : alerts (btnSendToMain window_url (before ++ ⟨k, ""⟩ :: after)) =
        List.replicate ((before ++ ⟨k, ""⟩ :: after).countP fun f => f.value = "")
          "字段不能为空" := by
      unfold btnSendToMain sendToMainLoop
      rw [alerts_append, alerts_append, foldl_sendToMainStep_effects]
      simp [alerts, alerts_replicate_alert]
    rw [halerts]
    intro h
    have hlen := congrArg List.length h
    rw [List.length_replicate] at hlen
    simp only [List.length_nil] at hlen
    omega
  · rw [requests_btnSendToMain]
    have : JSON_stringify (sendToMainLoop
        [⟨"destination_address", ""⟩, ⟨"amount", "1"⟩, ⟨"root_xpubs", "xpubA,xpubB"⟩,
          ⟨"xprvs", "xprvA"⟩]).obj =
        "\x7b\"destination_address\":\"\",\"amount\":\"1\"," ++
          "\"root_xpubs\":[\"xpubA\",\"xpubB\"],\"xprvs\":[\"xprvA\"]\x7d" := by decide
    rw [this]

/-- C5. Each button handler issues exactly one request, with the method and
    the path of the interface table, the path appended to `window.url`. The
    requests of the create-key-pair and of the two list handlers have no body;
    the body of the create-peg-in-address request is the JSON text of the
    object with the one key `account_id`, holding the input value, whatever it
    is (for the empty input the text is the object with `account_id` set to
    the empty string); the claim and withdraw requests carry the JSON text of
    their form objects. -/
theorem one_request_per_button (op : Operation) (page : Page) :
    (∃ r : Request, requests (click op page) = [r] ∧
      r.method = (documentedInterface op).1 ∧
      r.url = page.window_url ++ (documentedInterface op).2) ∧
    requests (click .createKeyPair page) =
      [⟨.POST, page.window_url ++ "/api/create_key_pair", none, none, none⟩] ∧
    requests (click .listKeyPairs page) =
      [⟨.GET, page.window_url ++ "/api/get_key_pair", none, none, none⟩] ∧
    requests (click .createPeginAddress page) =
      [⟨.POST, page.window_url ++ "/api/create_pegin_address", some "json",
        some "application/json", some (JSON_stringify (params page.account_id))⟩] ∧
    ownKeys (params page.account_id) = ["account_id"] ∧
    getOwn (params page.account_id) "account_id" = some (.text page.account_id) ∧
    requests (btnCreateScript page.window_url "") =
      [⟨.POST, page.window_url ++ "/api/create_pegin_address", some "json",
        some "application/json", some "\x7b\"account_id\":\"\"\x7d"⟩] ∧
    requests (click .listPeginAddresses page) =
      [⟨.GET, page.window_url ++ "/api/get_pegin_address", none, none, none⟩] ∧
    requests (click .claim page) =
      [⟨.POST, page.window_url ++ "/api/claim_tx", some "json", some "application/json",
        some (JSON_stringify (sendToSideObj page.formToSide))⟩] ∧
    requests (click .withdraw page) =
      [⟨.POST, page.window_url ++ "/api/send_to_mainchain", some "json",
        some "application/json", some (JSON_stringify (sendToMainLoop page.formToMain).obj)⟩] := by
  have hempty : JSON_stringify (params "") = "\x7b\"account_id\":\"\"\x7d" := by decide
  refine ⟨?_, rfl, rfl, rfl, rfl, rfl, ?_, rfl, rfl, requests_btnSendToMain _ _⟩
  · cases op
    · exact ⟨_, rfl, rfl, rfl⟩
    · exact ⟨_, rfl, rfl, rfl⟩
    · exact ⟨_, rfl, rfl, rfl⟩
    · exact ⟨_, rfl, rfl, rfl⟩
    · exact ⟨_, rfl, rfl, rfl⟩
    · exact ⟨_, requests_btnSendToMain _ _, rfl, rfl⟩
  · simp only [btnCreateScript, requests, hempty]

/-- C4 (amended). For the create-key-pair, create-peg-in-address and claim
    handlers and every response: when the condition `response.code == 200`
    evaluates to true exactly one notice is shown, the success notice; when it
    evaluates to false (also when `code` is absent) exactly one notice is
    shown, the failure notice; when its evaluation throws (the response is
    `undefined` or `null`, or the conversion of an object-valued `code`
    throws) the callback ends with that exception and shows no notice. So the
    success notice is shown exactly when the condition evaluates to true and
    the failure notice exactly when it evaluates to false. On an object
    response the condition does not throw for an absent, numeric or string
    `code`: it is false for an absent one, true for a number exactly when the
    number is 200, and true for the string `"200"`. -/
theorem notice_follows_code (H : Host) (data : List Field) (res : JSVal) :
    (match codeIs200 H res with
      | .ok true =>
        notices (btnCreate_success H res).effects = ["创建成功"] ∧
        notices (btnCreateScript_success H res).effects = ["创建成功"] ∧
        notices (btnSendToSide_success H data res).effects = ["cliam tx success"]
      | .ok false =>
        notices (btnCreate_success H res).effects = ["创建失败"] ∧
        notices (btnCreateScript_success H res).effects = ["创建失败"] ∧
        notices (btnSendToSide_success H data res).effects = ["创建失败"]
      | .error e =>
        (notices (btnCreate_success H res).effects = [] ∧
          (btnCreate_success H res).thrown = some e) ∧
        (notices (btnCreateScript_success H res).effects = [] ∧
          (btnCreateScript_success H res).thrown = some e) ∧
        (notices (btnSendToSide_success H data res).effects = [] ∧
          (btnSendToSide_success H data res).thrown = some e)) ∧
    ((notices (btnCreate_success H res).effects = ["创建成功"] ↔
        codeIs200 H res = .ok true) ∧
      (notices (btnCreateScript_success H res).effects = ["创建成功"] ↔
        codeIs200 H res = .ok true) ∧
      (notices (btnSendToSide_success H data res).effects = ["cliam tx success"] ↔
        codeIs200 H res = .ok true)) ∧
    ((notices (btnCreate_success H res).effects = ["创建失败"] ↔
        codeIs200 H res = .ok false) ∧
      (notices (btnCreateScript_success H res).effects = ["创建失败"] ↔
        codeIs200 H res = .ok false) ∧
      (notices (btnSendToSide_success H data res).effects = ["创建失败"] ↔
        codeIs200 H res = .ok false)) ∧
    (∀ props : List (String × JSVal), props.lookup "code" = none →
      codeIs200 H (.obj props) = .ok false) ∧
    (∀ (props : List (String × JSVal)) (q : ℚ), props.lookup "code" = some (.num q) →
      codeIs200 H (.obj props) = .ok (decide (q = 200))) ∧
    (∀ (props : List (String × JSVal)) (s : String), props.lookup "code" = some (.str s) →
      codeIs200 H (.obj props) = .ok (stringIs200 s)) ∧
    stringIs200 "200" = true := by
  have hmain : (match codeIs200 H res with
      | .ok true =>
        notices (btnCreate_success H res).effects = ["创建成功"] ∧
        notices (btnCreateScript_success H res).effects = ["创建成功"] ∧
        notices (btnSendToSide_success H data res).effects = ["cliam tx success"]
      | .ok false =>
        notices (btnCreate_success H res).effects = ["创建失败"] ∧
        notices (btnCreateScript_success H res).effects = ["创建失败"] ∧
        notices (btnSendToSide_success H data res).effects = ["创建失败"]
      | .error e =>
        (notices (btnCreate_success H res).effects = [] ∧
          (btnCreate_success H res).thrown = some e) ∧
        (notices (btnCreateScript_success H res).effects = [] ∧
          (btnCreateScript_success H res).thrown = some e) ∧
        (notices (btnSendToSide_success H data res).effects = [] ∧
          (btnSendToSide_success H data res).thrown = some e)) := by
    unfold codeIs200 btnCreate_success btnCreateScript_success btnSendToSide_success
    cases hc : getProp res .code with
    | error e => simp [notices]
    | ok code =>
      obtain ⟨m, hm⟩ := getProp_ok_of_ok hc .msg
      simp only [getProp_fieldsVal]
      cases hl : looseEq200 H code with
      | error e => simp [notices]
      | ok b => cases b <;> simp [notices, hm]
  refine ⟨hmain, ?_, ?_, ?_, ?_, ?_, by decide⟩
  · cases hc : codeIs200 H res with
    | error e =>
      rw [hc] at hmain
      obtain ⟨⟨h1, _⟩, ⟨h2, _⟩, ⟨h3, _⟩⟩ := hmain
      simp [h1, h2, h3]
    | ok b =>
      rw [hc] at hmain
      cases b
      · obtain ⟨h1, h2, h3⟩ := hmain
        simp [h1, h2, h3]
      · obtain ⟨h1, h2, h3⟩ := hmain
        simp [h1, h2, h3]
  · cases hc : codeIs200 H res with
    | error e =>
      rw [hc] at hmain
      obtain ⟨⟨h1, _⟩, ⟨h2, _⟩, ⟨h3, _⟩⟩ := hmain
      simp [h1, h2, h3]
    | ok b =>
      rw [hc] at hmain
      cases b
      · obtain ⟨h1, h2, h3⟩ := hmain
        simp [h1, h2, h3]
      · obtain ⟨h1, h2, h3⟩ := hmain
        simp [h1, h2, h3]
  · intro props h
    simp [codeIs200, getProp, PropName.key, h, looseEq200]
  · intro props q h
    simp [codeIs200, getProp, PropName.key, h, looseEq200]
  · intro props s h
    simp [codeIs200, getProp, PropName.key, h, looseEq200]

/-- C4, as stated, fails on the responses `undefined` and `null`: the read of
    `code` throws, and none of the three callbacks shows a notice. -/
theorem notice_follows_code_counterexample :
    (∀ H : Host, notices (btnCreate_success H .undefined).effects = [] ∧
      (btnCreate_success H .undefined).thrown = some .typeError) ∧
    (∀ H : Host, notices (btnCreateScript_success H .null).effects = [] ∧
      (btnCreateScript_success H .null).thrown = some .typeError) ∧
    (∀ H : Host, notices (btnSendToSide_success H [] .undefined).effects = [] ∧
      (btnSendToSide_success H [] .undefined).thrown = some .typeError) :=
  ⟨fun _ => ⟨rfl, rfl⟩, fun _ => ⟨rfl, rfl⟩, fun _ => ⟨rfl, rfl⟩⟩

/-- C3. A response whose code is 500 is reported as a success by the withdraw
    callback, whose condition is the truthiness of `code` (every number other
    than 0 passes it), and by the two list callbacks, which show their success
    notice on every response and render the table whenever `data` parses. The
    claim callback, given the same response, shows the failure notice. -/
theorem non200_reported_as_success :
    (∀ data : List Field,
      (btnSendToMain_success data
        (.obj [("code", .num 500), ("msg", .str "insufficient signatures")])).effects =
      [.log (.obj [("code", .num 500), ("msg", .str "insufficient signatures")]),
        .msg "send to mainchain success" none]) ∧
    (∀ (data : List Field) (props : List (String × JSVal)) (q : ℚ),
      props.lookup "code" = some (.num q) → q ≠ 0 →
      notices (btnSendToMain_success data (.obj props)).effects =
        ["send to mainchain success"]) ∧
    (∀ (H : Host) (res : JSVal),
      notices (btnGetKey_success H res).effects = ["获取key pair成功"]) ∧
    (∀ (H : Host) (res : JSVal),
      notices (btnGetScript_success H res).effects = ["获取key pair成功"]) ∧
    (∀ (H : Host) (items : JSVal), H.JSON_parse (.str "[]") = .ok items →
      rendered (btnGetKey_success H
        (.obj [("code", .num 500), ("data", .str "[]")])).effects = [".key-pair-table"] ∧
      rendered (btnGetScript_success H
        (.obj [("code", .num 500), ("data", .str "[]")])).effects =
        [".pegin-address-table"]) ∧
    (∀ (H : Host) (data : List Field),
      notices (btnSendToSide_success H data
        (.obj [("code", .num 500), ("msg", .str "insufficient signatures")])).effects =
      ["创建失败"]) := by
  refine ⟨?_, ?_, ?_, ?_, ?_, ?_⟩
  · intro data
    have h : ToBoolean (.num 500) = true := by
      simp [ToBoolean]
    simp [btnSendToMain_success, getProp, PropName.key, List.lookup, h]
  · intro data props q hq hne
    simp [btnSendToMain_success, getProp, PropName.key, hq, ToBoolean, hne, notices]
  · intro H res
    unfold btnGetKey_success
    cases getProp res .data with
    | error e => rfl
    | ok d =>
      simp only
      cases hp : H.JSON_parse d <;> rfl
  · intro H res
    unfold btnGetScript_success
    cases getProp res .data with
    | error e => rfl
    | ok d =>
      simp only
      cases hp : H.JSON_parse d <;> rfl
  · intro H items h
    have hd : getProp (.obj [("code", .num 500), ("data", .str "[]")]) .data =
        .ok (.str "[]") := by
      simp [getProp, PropName.key, List.lookup]
    simp [btnGetKey_success, btnGetScript_success, hd, h, rendered]
  · intro H data
    have h500 : ¬ ((500 : ℚ) = 200) := by norm_num
    simp [btnSendToSide_success, getProp, PropName.key, List.lookup, looseEq200, h500,
      fieldsVal, notices]

/-- C10. In the claim and withdraw callbacks the failure branch does not
    depend on the response: any two responses that take it give the same run,
    which logs the serialized form array and shows the failure notice with the
    `msg` property of that array, `undefined`. The create-key-pair and
    create-peg-in-address callbacks pass the `msg` of the response itself. -/
theorem failure_notice_ignores_response (H : Host) (b : FormButton) (data : List Field)
    (res₁ res₂ : JSVal) (h₁ : takesFailureBranch H b res₁ = true)
    (h₂ : takesFailureBranch H b res₂ = true) :
    formSuccess H b data res₁ = formSuccess H b data res₂ ∧
    (formSuccess H b data res₁).effects =
      [.log (fieldsVal data), .msg "创建失败" (some .undefined)] ∧
    getProp (fieldsVal data) .msg = .ok .undefined ∧
    (∀ (res m : JSVal), codeIs200 H res = .ok false → getProp res .msg = .ok m →
      (btnCreate_success H res).effects = [.log res, .msg "创建失败" (some m)] ∧
      (btnCreateScript_success H res).effects = [.log res, .msg "创建失败" (some m)]) := by
  have key : ∀ res, takesFailureBranch H b res = true →
      formSuccess H b data res =
        ⟨[.log (fieldsVal data), .msg "创建失败" (some .undefined)], none⟩ := by
    intro res h0
    have h : formCondition H b res = .ok false := by
      unfold takesFailureBranch at h0
      cases hc : formCondition H b res with
      | error e => rw [hc] at h0; cases h0
      | ok v => cases v <;> first | rfl | (rw [hc] at h0; cases h0)
    cases b with
    | btnSendToSide =>
      simp only [formCondition, codeIs200] at h
      simp only [formSuccess, btnSendToSide_success, getProp_fieldsVal]
      cases hc : getProp res .code with
      | error e => rw [hc] at h; cases h
      | ok code =>
        rw [hc] at h
        simp only at h
        simp only [h]
    | btnSendToMain =>
      simp only [formCondition, codeTruthy] at h
      simp only [formSuccess, btnSendToMain_success, getProp_fieldsVal]
      cases hc : getProp res .code with
      | error e => rw [hc] at h; cases h
      | ok code =>
        rw [hc] at h
        simp only [Except.ok.injEq] at h
        simp [h]
  refine ⟨?_, ?_, rfl, ?_⟩
  · rw [key res₁ h₁, key res₂ h₂]
  · rw [key res₁ h₁]
  · intro res m hc hm
    unfold codeIs200 at hc
    unfold btnCreate_success btnCreateScript_success
    cases hg : getProp res .code with
    | error e => rw [hg] at hc; cases hc
    | ok code =>
      rw [hg] at hc
      simp only at hc
      simp [hc, hm]

/-- C10 at two responses that differ only in `msg`, for each of the two
    callbacks: both take the failure branch and the runs are the same. -/
theorem failure_notice_ignores_response_witness :
    (∀ H : Host,
      takesFailureBranch H .btnSendToSide
          (.obj [("code", .num 500), ("msg", .str "a")]) = true ∧
      takesFailureBranch H .btnSendToSide
          (.obj [("code", .num 500), ("msg", .str "b")]) = true ∧
      formSuccess H .btnSendToSide [⟨"raw_transaction", "00"⟩]
          (.obj [("code", .num 500), ("msg", .str "a")]) =
        formSuccess H .btnSendToSide [⟨"raw_transaction", "00"⟩]
          (.obj [("code", .num 500), ("msg", .str "b")])) ∧
    (∀ H : Host,
      takesFailureBranch H .btnSendToMain
          (.obj [("code", .num 0), ("msg", .str "a")]) = true ∧
      takesFailureBranch H .btnSendToMain
          (.obj [("code", .num 0), ("msg", .str "b")]) = true ∧
      formSuccess H .btnSendToMain [⟨"amount", "1"⟩]
          (.obj [("code", .num 0), ("msg", .str "a")]) =
        formSuccess H .btnSendToMain [⟨"amount", "1"⟩]
          (.obj [("code", .num 0), ("msg", .str "b")])) := by
  have side : ∀ (H : Host) (s : String),
      takesFailureBranch H .btnSendToSide
        (.obj [("code", .num 500), ("msg", .str s)]) = true := by
    intro H s
    have h500 : ¬ ((500 : ℚ) = 200) := by norm_num
    simp [takesFailureBranch, formCondition, codeIs200, getProp, PropName.key, List.lookup,
      looseEq200, h500]
  have main : ∀ (H : Host) (s : String),
      takesFailureBranch H .btnSendToMain
        (.obj [("code", .num 0), ("msg", .str s)]) = true := by
    intro H s
    simp [takesFailureBranch, formCondition, codeTruthy, getProp, PropName.key, List.lookup,
      ToBoolean]
  exact ⟨fun H => ⟨side H "a", side H "b",
      (failure_notice_ignores_response H .btnSendToSide _ _ _ (side H "a") (side H "b")).1⟩,
    fun H => ⟨main H "a", main H "b",
      (failure_notice_ignores_response H .btnSendToMain _ _ _ (main H "a") (main H "b")).1⟩⟩

end SideChainTool
